import Mathlib

/-!
Verification of the KiCad-footprint → ergogen-footprint converter
(`fp-kicad8-to-ergogen.py`): a shallow embedding of the rewrite-and-classify
pipeline (node rewriter, line flattener, layer classifier, code-block
assembler, module emitter) together with theorems about its behaviour.

Strings are modelled by Lean `String` (a wrapper around `List Char`);
Python's substring test `pat in s`, `str.replace`, `str.strip('"')` are
embedded below as executable functions on character lists.
-/

/-- Substring test on character lists: Python `pat in s`. -/
def hasSub (s pat : List Char) : Bool :=
  match s with
  | [] => pat.isEmpty
  | _ :: rest => pat.isPrefixOf s || hasSub rest pat

/-- The Python substring test `pat in s` for strings. -/
def strContains (s pat : String) : Bool := hasSub s.data pat.data

/-- Number of positions of `s` at which `pat` starts.  For the patterns used
here (placeholder openers) occurrences cannot overlap, so this also counts
Python-style non-overlapping occurrences. -/
def countOcc (pat : List Char) : List Char → Nat
  | [] => 0
  | c :: rest => (if pat.isPrefixOf (c :: rest) then 1 else 0) + countOcc pat rest

/-- Left-to-right non-overlapping replacement, the semantics of Python
`s.replace(pat, rep)` for a non-empty `pat`.  The `skip` counter consumes the
remaining characters of a match that has already emitted `rep`. -/
def replaceGo (pat rep : List Char) : List Char → Nat → List Char
  | [], _ => []
  | _ :: t, skip + 1 => replaceGo pat rep t skip
  | c :: t, 0 =>
    if pat.isPrefixOf (c :: t) then rep ++ replaceGo pat rep t (pat.length - 1)
    else c :: replaceGo pat rep t 0

/-- The Python call `s.replace(pat, rep)`. -/
def replaceStr (s pat rep : String) : String := ⟨replaceGo pat.data rep.data s.data 0⟩

/-- The Python call `s.strip('"')`: drop all leading and trailing double-quote
characters. -/
def stripQuotes (s : String) : String :=
  ⟨((s.data.dropWhile (fun c => c = '"')).reverse.dropWhile (fun c => c = '"')).reverse⟩

/-! ### Placeholder tokens injected by the handlers -/

/-- The rotation placeholder `"${p.rot}"` appended by `_handle_at`. -/
def rotTok : String := "$\x7bp.rot\x7d"

/-- The reference-designator placeholder `'"${p.ref}"'`. -/
def refTok : String := "\"$\x7bp.ref\x7d\""

/-- The side-parametrized silkscreen layer `'(layer "${p.side}.SilkS")'`. -/
def silkTok : String := "(layer \"$\x7bp.side\x7d.SilkS\")"

/-- The conditional-hide placeholder `"${p.ref_hide}"`. -/
def refHideTok : String := "$\x7bp.ref_hide\x7d"

/-! ### Atom processing inside `_rebuild_mod_data` -/

/-- The escape step `item.replace("${", r"\${")` for a literal placeholder opener. -/
def escapeStr (item : String) : String := replaceStr item "$\x7b" "\\$\x7b"

/-- The fixed literal substitution table `remapping` (`remapping.get(item, item)`). -/
def remapGet (item : String) : String := if item = "\"REF**\"" then refTok else item

/-- What `_rebuild_mod_data` does to a scalar child: escape, then remap. -/
def procAtom (item : String) : String := remapGet (escapeStr item)

/-! ### The node model and the handlers -/

/-- A parsed S-expression node: an atom token (quoting preserved) or a
balanced parenthesized group, as produced by `nested_expr("(", ")")`. -/
inductive Node where
  | atom (s : String)
  | list (children : List Node)
deriving Repr

/-- A Python `IndexError` site reachable in the rewriter. -/
inductive Err where
  /-- Error of `result[0]` on an empty rewritten child list (an empty group `()`). -/
  | emptyHead
  /-- Error of `pad[1]` on a pad node with fewer than two elements. -/
  | padIdx
  /-- Error of `pad_id[0]` after stripping quotes left an empty identifier. -/
  | stripEmptyId
  /-- Error of `result[1]` or `result[2]` on a too-short property node. -/
  | propIdx
deriving DecidableEq, Repr

/-- The handler `_handle_at`: append `${p.rot}` when there is no 4th element, otherwise
rewrite the 4th element to `${<v> + p.rot}`. -/
def handle_at (pos : List String) : List String :=
  match pos with
  | a :: b :: c :: d :: rest => a :: b :: c :: ("$\x7b" ++ d ++ " + p.rot\x7d") :: rest
  | _ => pos ++ [rotTok]

/-- The set insertion `self.padnames.add(name)`, modelled insertion-ordered. -/
def addPad (pads : List String) (name : String) : List String :=
  if name ∈ pads then pads else pads ++ [name]

/-- The handler `_handle_pad`: derive a parameter name from the pad identifier, register
it, and append a `${p.<name>}` net-reference token. -/
def handle_pad (pad : List String) (pads : List String) :
    Except Err (List String × List String) :=
  match pad with
  | [] => Except.error Err.padIdx
  | [_] => Except.error Err.padIdx
  | h :: pid :: rest =>
    if pid = "\"\"" then Except.ok (h :: pid :: rest, pads)
    else
      match (stripQuotes pid).data with
      | [] => Except.error Err.stripEmptyId
      | c :: _ =>
        let name := if c.isDigit then "P" ++ stripQuotes pid else stripQuotes pid
        Except.ok ((h :: pid :: rest) ++ ["$\x7bp." ++ name ++ "\x7d"], addPad pads name)

/-- The handler `_handle_property`: on a `"Reference"` property, substitute the value,
force layer fields to the silkscreen placeholder, synthesize a `hide` flag
next to each layer field when none is present, and replace hide fields by the
conditional-hide placeholder. -/
def handle_property (result : List String) : Except Err (List String) :=
  match result with
  | [] => Except.error Err.propIdx
  | [_] => Except.error Err.propIdx
  | h :: snd :: rest =>
    if snd ≠ "\"Reference\"" then Except.ok (h :: snd :: rest)
    else
      match rest with
      | [] => Except.error Err.propIdx
      | _ :: tail =>
        let tail1 := tail.map (fun x => if strContains x "layer" then silkTok else x)
        let found := tail1.filter (fun x => strContains x "hide")
        let tail2 :=
          if found.isEmpty then
            tail1.flatMap (fun e =>
              [e] ++ (if strContains e "layer" || e == "hide" then ["hide"] else []))
          else tail1
        let tail3 := tail2.map (fun x => if strContains x "hide" then refHideTok else x)
        Except.ok (h :: snd :: refTok :: tail3)

/-! ### `_rebuild_mod_data`: the recursive node rewriter -/

mutual
/-- The rewriter `_rebuild_mod_data` applied to the children of one parenthesized group:
process every child (escape/remap atoms, recursively rewrite sub-groups),
dispatch on the head token, serialize. -/
def rebuildNode : List Node → List String → Except Err (String × List String)
  | children, pads => do
    let (result, pads1) ← rebuildChildren children pads
    match result with
    | [] => Except.error Err.emptyHead
    | h :: t => do
      let (handled, pads2) ←
        if h = "at" then Except.ok (handle_at (h :: t), pads1)
        else if h = "pad" then handle_pad (h :: t) pads1
        else if h = "property" then (handle_property (h :: t)).map (fun r => (r, pads1))
        else if h = "tstamp" then Except.ok (([] : List String), pads1)
        else if h = "uuid" then Except.ok (([] : List String), pads1)
        else Except.ok (h :: t, pads1)
      match handled with
      | [] => Except.ok ("", pads2)
      | h2 :: t2 => Except.ok ("(" ++ h2 ++ " " ++ String.intercalate " " t2 ++ ")", pads2)

/-- The child-processing loop of `_rebuild_mod_data`. -/
def rebuildChildren : List Node → List String → Except Err (List String × List String)
  | [], pads => Except.ok ([], pads)
  | Node.atom s :: rest, pads => do
    let (tl, p) ← rebuildChildren rest pads
    Except.ok (procAtom s :: tl, p)
  | Node.list cs :: rest, pads => do
    let (line, p) ← rebuildNode cs pads
    let (tl, p2) ← rebuildChildren rest p
    Except.ok (line :: tl, p2)
end

/-! ### `_make_onelines`: the line flattener -/

/-- The accumulation loop of `_make_onelines`: scalar children are appended
(with a leading space) to a pending line, which is flushed when a nested
group is met; the group's rewritten text then becomes its own line.  A
pending line left at the end of the loop is dropped, as in the source. -/
def makeOnelinesGo : List Node → String → List String → Except Err (List String × List String)
  | [], _, pads => Except.ok ([], pads)
  | Node.atom s :: rest, oneLine, pads => makeOnelinesGo rest (oneLine ++ " " ++ s) pads
  | Node.list cs :: rest, oneLine, pads => do
    let (line, pads1) ← rebuildNode cs pads
    let (tl, pads2) ← makeOnelinesGo rest "" pads1
    Except.ok ((if oneLine ≠ "" then [oneLine] else []) ++ line :: tl, pads2)

/-- The flattener `_make_onelines(parsed_data)`. -/
def make_onelines (children : List Node) (pads : List String) :
    Except Err (List String × List String) :=
  makeOnelinesGo children "" pads

/-- The method `ErgogenSyntaxConverter.convert`: `none` models a missing input file
(`FileNotFoundError` is caught and `[], []` returned); `some children` models
a successfully read and parsed file whose top-level group has the given
children.  A fresh converter (empty pad-name set) is used per file. -/
def convert (input : Option (List Node)) : Except Err (List String × List String) :=
  match input with
  | none => Except.ok ([], [])
  | some children => make_onelines children []

/-! ### The layer classifier (`ErgogenFootPrint._filters_out`, `_get_layers`) -/

/-- The values of the `Layers` enumeration, in definition order. -/
def layersOrder : List String :=
  ["F.Cu", "B.Cu", "pad", "F.SilkS", "B.SilkS", "F.Fab", "B.Fab", "F.Mask", "B.Mask",
   "F.CrtYd", "B.CrtYd", "F.Paste", "B.Paste", "Edge.Cuts", "Dwgs.User", "Cmts.User",
   "Eco1.User", "Eco2.User", "model"]

/-- The copper-layer marker set of `_get_layers`. -/
def cuMarkers : List String := ["pad", "fp_line", "fp_poly", "fp_text"]

/-- The lookup `options.get(a_layer, [])`: the marker restriction per layer. -/
def layerOptions (aLayer : String) : List String :=
  if aLayer = "F.Cu" then cuMarkers else if aLayer = "B.Cu" then cuMarkers else []

/-- The sweep `_filters_out`: one consuming sweep, returning `(filtered, unprocessed)`
in input order. -/
def filtersOut (aLayer : String) (onelines : List String) (options : List String) :
    List String × List String :=
  match onelines with
  | [] => ([], [])
  | item :: rest =>
    let (f, u) := filtersOut aLayer rest options
    if !(strContains item aLayer) then (f, item :: u)
    else if !options.isEmpty && !(options.any (fun o => strContains item o)) then (f, item :: u)
    else (item :: f, u)

/-- The `for a_layer in Layers` loop of `_get_layers`: returns the buckets
collected so far (a layer appears only when its `filtered` list is non-empty)
together with the still-unprocessed lines. -/
def getLayersGo (names : List String) (unprocessed : List String) :
    List (String × List String) × List String :=
  match names with
  | [] => ([], unprocessed)
  | n :: rest =>
    let (filtered, un) := filtersOut n unprocessed (layerOptions n)
    let (buckets, finalUn) := getLayersGo rest un
    (if filtered.isEmpty then buckets else (n, filtered) :: buckets, finalUn)

/-- The copper-side normalization applied to the opening bucket. -/
def normalizeOpening (s : String) : String :=
  replaceStr (replaceStr s "(layer \"F.Cu\")" "(layer \"$\x7bp.side\x7d.Cu\")")
    "(layer \"B.Cu\")" "(layer \"$\x7bp.side\x7d.Cu\")"

/-- The classifier `_get_layers`: an insertion-ordered association list of buckets, the
synthetic `"Opening"` bucket (normalized residue) last. -/
def getLayers (onelines : List String) : List (String × List String) :=
  let (buckets, un) := getLayersGo layersOrder onelines
  buckets ++ [("Opening", un.map normalizeOpening)]

/-- The claiming predicate of `_filters_out`: the line contains the layer
name, and for an option-restricted layer also one of the markers. -/
def claimsLine (item aLayer : String) (options : List String) : Bool :=
  strContains item aLayer && (options.isEmpty || options.any (fun o => strContains item o))

/-- Specification function: the first enumerated layer that claims the line. -/
def claimOf (names : List String) (item : String) : Option String :=
  names.find? (fun n => claimsLine item n (layerOptions n))

/-! ### The code-block assembler (`_make_code_blocks`) -/

/-- The `target_layers` table: bucket key, block identifier, literal prefix,
literal suffix — in the source's fixed iteration order. -/
def targetLayers : List (String × String × String × String) :=
  [("Opening", "standard_opening", "(", "$\x7bp.at /* parametric position */\x7d"),
   ("F.SilkS", "front_silkscreen", "", ""),
   ("F.Cu", "front_pads", "", ""),
   ("F.Fab", "front_fabrication", "", ""),
   ("F.Mask", "front_mask", "", ""),
   ("F.CrtYd", "front_courtyard", "", ""),
   ("F.Paste", "front_paste", "", ""),
   ("pad", "pads", "", ""),
   ("B.SilkS", "back_silkscreen", "", ""),
   ("B.Cu", "back_pads", "", ""),
   ("B.Fab", "back_fabrication", "", ""),
   ("B.Mask", "back_mask", "", ""),
   ("B.CrtYd", "back_courtyard", "", ""),
   ("B.Paste", "back_paste", "", ""),
   ("Edge.Cuts", "edge_cuts", "", ""),
   ("Dwgs.User", "user_drawing", "", ""),
   ("Cmts.User", "user_comments", "", ""),
   ("Eco1.User", "user_eco1", "", ""),
   ("Eco2.User", "user_eco2", "", ""),
   ("model", "model", "", ""),
   ("Closing", "standard_closing", "", "    )")]

/-- The lookup `layers.get(layer_name, [])` on the bucket association list. -/
def lookupD (layers : List (String × List String)) (key : String) : List String :=
  match layers.find? (fun kv => kv.1 == key) with
  | some kv => kv.2
  | none => []

/-- One code block: declaration header, indented bucket lines, optional
suffix line, terminator — as concatenated in `_make_code_blocks`. -/
def blockText (constVar pre : String) (lines : List String) (post : String) : String :=
  "    const " ++ constVar ++ " = `" ++ pre ++ "\n"
    ++ String.join (lines.map (fun l => "        " ++ l ++ "\n"))
    ++ (if post ≠ "" then "        " ++ post ++ "\n" else "")
    ++ "    `\n"

/-- The assembler `_make_code_blocks`: one block per `target_layers` entry, keyed by the
block identifier, in the fixed iteration order. -/
def mkCodeBlocks (layers : List (String × List String)) : List (String × String) :=
  targetLayers.map (fun t => (t.2.1, blockText t.2.1 t.2.2.1 (lookupD layers t.1) t.2.2.2))

/-! ### The module emitter (`_dump_to_file`) -/

/-- One generated net-parameter declaration line. -/
def paramLine (padname : String) : String :=
  "    " ++ padname ++ ": \x7btype: \x27net\x27, value: \x27" ++ padname
    ++ "\x27\x7d, // undefined\x7d, // change to undefined as needed\n"

/-- The fixed `module.exports` header with the default parameters. -/
def moduleHeader : String :=
  "module.exports = \x7b\n  params: \x7b\n    designator: \x27X\x27,    // change it accordingly\n"
    ++ "    side: \x27F\x27,          // delete if not needed\n"
    ++ "    reversible: false,  // delete if not needed\n"
    ++ "    show_3d: false,     // delete if not needed\n"

/-- The emitter `_dump_to_file`: the full text written to the output `.js` file.  (The
`const_variables[0]` access is always safe because `mkCodeBlocks` emits one
block per `targetLayers` entry; the `[]` arm is unreachable from the
pipeline.) -/
def dumpToFile (codeBlocks : List (String × String)) (padnames : List String) : String :=
  moduleHeader
    ++ String.join (padnames.map paramLine)
    ++ "  \x7d,\n  body: p => \x7b\n"
    ++ String.join (codeBlocks.map (fun b => b.2))
    ++ (match codeBlocks.map (fun b => b.1) with
        | [] => ""
        | v0 :: restVars =>
          "    let final = " ++ v0 ++ ";\n"
            ++ String.join (restVars.map (fun v => "    final += " ++ v ++ ";\n")))
    ++ "\n    return final\n  \x7d\n\x7d"

/-- The driver `convert_kicad_fp_to_ergogen_fp`: convert one (possibly missing) input
and write the output module; the returned string is the written file
content.  Note the dump step runs even when the input file was missing. -/
def convertFile (input : Option (List Node)) : Except Err String := do
  let (onelines, padnames) ← convert input
  let layers := getLayers onelines
  let blocks := mkCodeBlocks layers
  Except.ok (dumpToFile blocks padnames)

/-- The loop `process_directory`: convert each discovered file in order; an uncaught
error aborts the remainder, a caught missing-file error does not. -/
def processDirectory : List (Option (List Node)) → Except Err (List String)
  | [] => Except.ok []
  | f :: rest => do
    let out ← convertFile f
    let outs ← processDirectory rest
    Except.ok (out :: outs)

/-! ### Helper lemmas -/

theorem ok_bind {ε α β : Type} (a : α) (f : α → Except ε β) :
    (Except.ok a : Except ε α) >>= f = f a := rfl

theorem procAtom_at : procAtom "at" = "at" := rfl

theorem addPad_self_mem (pads : List String) (n : String) : n ∈ addPad pads n := by
  unfold addPad; split
  · assumption
  · simp

/-! ### Claims -/

/-- C6: a position node (`at`) with fewer than 4 elements gets exactly one
rotation placeholder appended, all original fields unchanged and in order; a
position node with a 4th element `v` has that element rewritten to the
expression `${<v> + p.rot}` and no other field changed. -/
theorem C6_handle_at_rotation :
    (∀ pos : List String, pos.length < 4 → handle_at pos = pos ++ [rotTok]) ∧
    (∀ (a b c v : String) (rest : List String),
      handle_at (a :: b :: c :: v :: rest) =
        a :: b :: c :: ("$\x7b" ++ v ++ " + p.rot\x7d") :: rest) := by
  constructor
  · intro pos hlen
    rcases pos with _ | ⟨a, _ | ⟨b, _ | ⟨c, _ | ⟨d, rest⟩⟩⟩⟩
    · rfl
    · rfl
    · rfl
    · rfl
    · simp at hlen; omega
  · intro a b c v rest; rfl

/-- Witness for C6 at concrete inputs. -/
theorem C6_handle_at_rotation_witness :
    (([("at" : String), "1", "2"].length < 4) ∧
      handle_at ["at", "1", "2"] = ["at", "1", "2", rotTok]) ∧
    handle_at ["at", "1", "2", "90"] = ["at", "1", "2", "$\x7b90 + p.rot\x7d"] :=
  ⟨⟨by decide, C6_handle_at_rotation.1 ["at", "1", "2"] (by decide)⟩,
    by simpa using C6_handle_at_rotation.2 "at" "1" "2" "90" []⟩

/-- C5: a pad node whose identifier is the empty quoted string is returned
unchanged with no parameter registered; otherwise the identifier is
unquoted, prefixed with `P` exactly when its first character is a digit, the
derived name is registered, and a `${p.<name>}` net-reference token is
appended; identifier `"7"` yields parameter `P7`. -/
theorem C5_handle_pad_parameter :
    (∀ (h : String) (rest pads : List String),
      handle_pad (h :: "\"\"" :: rest) pads = Except.ok (h :: "\"\"" :: rest, pads)) ∧
    (∀ (h pid : String) (rest pads : List String) (c : Char) (cs : List Char),
      pid ≠ "\"\"" → (stripQuotes pid).data = c :: cs →
      handle_pad (h :: pid :: rest) pads =
        Except.ok ((h :: pid :: rest) ++
            ["$\x7bp." ++ (if c.isDigit then "P" ++ stripQuotes pid else stripQuotes pid)
              ++ "\x7d"],
          addPad pads (if c.isDigit then "P" ++ stripQuotes pid else stripQuotes pid)) ∧
      (if c.isDigit then "P" ++ stripQuotes pid else stripQuotes pid) ∈
        addPad pads (if c.isDigit then "P" ++ stripQuotes pid else stripQuotes pid)) ∧
    (stripQuotes "\"7\"" = "7" ∧
      handle_pad ["pad", "\"7\"", "smd"] [] =
        Except.ok (["pad", "\"7\"", "smd", "$\x7bp.P7\x7d"], ["P7"])) := by
  refine ⟨?_, ?_, by decide, by rfl⟩
  · intro h rest pads
    simp [handle_pad]
  · intro h pid rest pads c cs hne hdata
    refine ⟨?_, addPad_self_mem _ _⟩
    simp only [handle_pad]
    rw [if_neg hne, hdata]

/-- Witness for C5 at concrete inputs. -/
theorem C5_handle_pad_parameter_witness :
    (("\"A1\"" : String) ≠ "\"\"" ∧ (stripQuotes "\"A1\"").data = 'A' :: ['1']) ∧
    handle_pad ["pad", "\"A1\"", "smd"] [] =
      Except.ok (["pad", "\"A1\"", "smd", "$\x7bp.A1\x7d"], ["A1"]) ∧
    "A1" ∈ addPad [] "A1" := by
  refine ⟨⟨by decide, by decide⟩, ?_⟩
  have h := C5_handle_pad_parameter.2.1 "pad" "\"A1\"" ["smd"] [] 'A' ['1']
    (by decide) (by decide)
  constructor
  · have h1 := h.1
    simpa using h1
  · simpa using h.2

/-- C8: the assembler emits one code block per name of the fixed block list
in the fixed order, independent of the bucket contents; a bucket with no
lines (or an absent key) still produces an empty-bodied block. -/
theorem C8_fixed_block_order :
    (∀ layers, (mkCodeBlocks layers).map Prod.fst =
      ["standard_opening", "front_silkscreen", "front_pads", "front_fabrication",
       "front_mask", "front_courtyard", "front_paste", "pads", "back_silkscreen",
       "back_pads", "back_fabrication", "back_mask", "back_courtyard", "back_paste",
       "edge_cuts", "user_drawing", "user_comments", "user_eco1", "user_eco2", "model",
       "standard_closing"]) ∧
    (∀ layers key name pre post, (key, name, pre, post) ∈ targetLayers →
      lookupD layers key = [] →
      (name, blockText name pre [] post) ∈ mkCodeBlocks layers) := by
  constructor
  · intro layers
    simp [mkCodeBlocks, targetLayers]
  · intro layers key name pre post hmem hlk
    have h := List.mem_map_of_mem
      (f := fun t : String × String × String × String =>
        (t.2.1, blockText t.2.1 t.2.2.1 (lookupD layers t.1) t.2.2.2)) hmem
    simpa [mkCodeBlocks, hlk] using h

/-- Witness for C8 at a concrete input. -/
theorem C8_fixed_block_order_witness :
    (("model", "model", "", "") ∈ targetLayers ∧ lookupD [] "model" = []) ∧
    ("model", blockText "model" "" [] "") ∈ mkCodeBlocks [] :=
  ⟨⟨by decide, rfl⟩, C8_fixed_block_order.2 [] "model" "model" "" "" (by decide) rfl⟩

theorem error_bind {ε α β : Type} (e : ε) (f : α → Except ε β) :
    (Except.error e : Except ε α) >>= f = Except.error e := rfl

/-- C2 (evaluating the code at the failing input): a dropped `tstamp` child
leaves an empty line in the flattened sequence, and that empty line is not
filtered out — it flows through classification and ends up in the synthetic
opening bucket. -/
theorem C2_empty_line_reaches_opening :
    convert (some [Node.atom "footprint", Node.list [Node.atom "tstamp", Node.atom "x"]]) =
      Except.ok ([" footprint", ""], []) ∧
    getLayers [" footprint", ""] = [("Opening", [" footprint", ""])] ∧
    "" ∈ lookupD (getLayers [" footprint", ""]) "Opening" := by
  refine ⟨?_, by decide, by decide⟩
  simp [convert, make_onelines, makeOnelinesGo, rebuildNode, rebuildChildren, procAtom,
    remapGet, escapeStr, replaceStr, replaceGo, ok_bind]

/-- C1 counterexample: for a missing input file (`none`) the driver still
writes an output file — the full parameterless skeleton module — contrary to
the claim that no output is written for that file. -/
theorem C1_missing_file_counterexample :
    convertFile none = Except.ok (dumpToFile (mkCodeBlocks (getLayers [])) []) := rfl

/-- C1 (amended): when the input file is missing, the caught error makes
`convert` return empty results and directory-mode processing of the other
files continues unaffected, but an output file (a skeleton module with no
parameters and all blocks empty) is still written for the missing file. -/
theorem C1_missing_file_behaviour :
    convert none = Except.ok ([], []) ∧
    (convertFile none).isOk = true ∧
    (∀ rest, processDirectory (none :: rest) =
      (processDirectory rest).map
        (fun outs => dumpToFile (mkCodeBlocks (getLayers [])) [] :: outs)) := by
  refine ⟨rfl, rfl, ?_⟩
  intro rest
  show (do
    let out ← convertFile none
    let outs ← processDirectory rest
    Except.ok (out :: outs)) = _
  rw [show convertFile none = Except.ok (dumpToFile (mkCodeBlocks (getLayers [])) []) from rfl]
  cases h : processDirectory rest <;> simp [ok_bind, error_bind, Except.map, h]

/-! ### Escaping: counting lemmas for C7 -/

/-- The placeholder-opening pattern as characters. -/
def openPat : List Char := ['$', '\x7b']

/-- The escaped placeholder-opening pattern as characters. -/
def escPat : List Char := '\\' :: openPat

/-- The double-escaped placeholder-opening pattern as characters. -/
def dblPat : List Char := '\\' :: escPat

/-- Specialized structural form of the escape replacement, used for the
counting proofs; `replaceGo_escape` relates it to `replaceStr`. -/
def escapeChars : List Char → List Char
  | [] => []
  | [c] => [c]
  | c :: d :: rest =>
    if c = '$' ∧ d = '\x7b' then '\\' :: '$' :: '\x7b' :: escapeChars rest
    else c :: escapeChars (d :: rest)

theorem replaceGo_cons_neg (pat rep : List Char) (c : Char) (t : List Char)
    (h : pat.isPrefixOf (c :: t) = false) :
    replaceGo pat rep (c :: t) 0 = c :: replaceGo pat rep t 0 := by
  rw [replaceGo, h]; rfl

theorem open_not_prefixOf (c d : Char) (rest : List Char) (hcd : ¬(c = '$' ∧ d = '\x7b')) :
    List.isPrefixOf openPat (c :: d :: rest) = false := by
  show (('$' == c) && (('\x7b' == d) && List.isPrefixOf [] rest)) = false
  simp only [List.isPrefixOf, Bool.and_true, Bool.and_eq_false_iff, beq_eq_false_iff_ne, ne_eq]
  by_cases h1 : c = '$'
  · subst h1
    exact Or.inr fun h2 => hcd ⟨rfl, h2.symm⟩
  · exact Or.inl fun h => h1 h.symm

theorem replaceGo_escape (s : List Char) :
    replaceGo openPat escPat s 0 = escapeChars s := by
  induction s using escapeChars.induct with
  | case1 => rfl
  | case2 c =>
      simp [replaceGo, escapeChars, openPat, List.isPrefixOf]
  | case3 c d rest hcd ih =>
      obtain ⟨h1, h2⟩ := hcd
      subst h1; subst h2
      simp [replaceGo, escapeChars, openPat, escPat, List.isPrefixOf]
      exact ih
  | case4 c d rest hcd ih =>
      rw [replaceGo_cons_neg _ _ _ _ (open_not_prefixOf c d rest hcd), ih]
      simp [escapeChars, if_neg hcd]

theorem countOcc_cons (pat : List Char) (c : Char) (t : List Char) :
    countOcc pat (c :: t) = (if pat.isPrefixOf (c :: t) then 1 else 0) + countOcc pat t := rfl

theorem countOcc_cons_ne (a c : Char) (p t : List Char) (hne : a ≠ c) :
    countOcc (a :: p) (c :: t) = countOcc (a :: p) t := by
  have hf : List.isPrefixOf (a :: p) (c :: t) = false := by
    show ((a == c) && List.isPrefixOf p t) = false
    simp [beq_eq_false_iff_ne, hne]
  rw [countOcc, hf]
  simp

theorem escapeChars_counts (s : List Char) (h : '\\' ∉ s) :
    countOcc escPat (escapeChars s) = countOcc openPat s ∧
    countOcc dblPat (escapeChars s) = 0 := by
  induction s using escapeChars.induct with
  | case1 => exact ⟨rfl, rfl⟩
  | case2 c =>
      simp only [List.mem_singleton] at h
      simp [escapeChars, countOcc, escPat, dblPat, openPat, List.isPrefixOf, Ne.symm h]
  | case3 c d rest hcd ih =>
      obtain ⟨h1, h2⟩ := hcd
      subst h1; subst h2
      simp only [List.mem_cons, not_or] at h
      obtain ⟨-, -, h⟩ := h
      simp [escapeChars, countOcc, escPat, dblPat, openPat, List.isPrefixOf]
      exact ih h
  | case4 c d rest hcd ih =>
      simp only [List.mem_cons, not_or] at h
      obtain ⟨hc, hd, hr⟩ := h
      have h' : '\\' ∉ d :: rest := by simp [hd, hr]
      have he : escapeChars (c :: d :: rest) = c :: escapeChars (d :: rest) := by
        simp [escapeChars, if_neg hcd]
      rw [he, escPat, dblPat]
      rw [countOcc_cons_ne '\\' c _ _ hc]
      rw [countOcc_cons_ne '\\' c _ _ hc]
      rw [← escPat, ← dblPat]
      refine ⟨?_, (ih h').2⟩
      have l2 : countOcc openPat (c :: d :: rest) = countOcc openPat (d :: rest) := by
        rw [countOcc_cons, open_not_prefixOf c d rest hcd]
        simp
      rw [l2]
      exact (ih h').1

/-- C7 counterexample: a source atom containing a literal placeholder opener
that sits in a top-level scalar run is flattened verbatim — its placeholder
opener reaches the flattened line (and the emitted module) unescaped, so it
is not the case that every literal opener of a source atom appears escaped in
the output. -/
theorem C7_toplevel_atom_unescaped :
    convert (some [Node.atom "footprint", Node.atom "\"$\x7bx\x7d\"",
        Node.list [Node.atom "tedit", Node.atom "5"]]) =
      Except.ok ([" footprint \"$\x7bx\x7d\"", "(tedit 5)"], []) ∧
    countOcc openPat (" footprint \"$\x7bx\x7d\"" : String).data = 1 ∧
    countOcc escPat (" footprint \"$\x7bx\x7d\"" : String).data = 0 ∧
    (convertFile (some [Node.atom "footprint", Node.atom "\"$\x7bx\x7d\"",
        Node.list [Node.atom "tedit", Node.atom "5"]])).map
      (fun out => (strContains out "\"$\x7bx\x7d\"", strContains out "\\$\x7b")) =
      Except.ok (true, false) := by
  have hc : convert (some [Node.atom "footprint", Node.atom "\"$\x7bx\x7d\"",
      Node.list [Node.atom "tedit", Node.atom "5"]]) =
      Except.ok ([" footprint \"$\x7bx\x7d\"", "(tedit 5)"], []) := by
    simp [convert, make_onelines, makeOnelinesGo, rebuildNode, rebuildChildren, procAtom,
      remapGet, escapeStr, replaceStr, replaceGo, ok_bind]
    rfl
  refine ⟨hc, by decide, by decide, ?_⟩
  unfold convertFile
  rw [hc]
  simp only [ok_bind]
  exact congrArg Except.ok (by set_option maxRecDepth 10000 in decide)

/-- C7 (amended): each literal placeholder opener in an atom processed by
the node rewriter's escaping step is escaped exactly once (`\${` occurrences
in the escaped atom equal `${` occurrences in the source atom) and never
double-escaped (no `\\${` is produced); however, atoms emitted through the
flattener's top-level scalar runs bypass this escaping entirely and are
appended verbatim. -/
theorem C7_escape_exactly_once (s : String) (hbs : '\\' ∉ s.data) :
    countOcc escPat (escapeStr s).data = countOcc openPat s.data ∧
    countOcc dblPat (escapeStr s).data = 0 ∧
    (∀ (rest : List Node) (oneLine : String) (pads : List String),
      makeOnelinesGo (Node.atom s :: rest) oneLine pads =
        makeOnelinesGo rest (oneLine ++ " " ++ s) pads) := by
  have h1 : (escapeStr s).data = escapeChars s.data := replaceGo_escape s.data
  rw [h1]
  exact ⟨(escapeChars_counts s.data hbs).1, (escapeChars_counts s.data hbs).2,
    fun rest oneLine pads => rfl⟩

/-- Witness for C7 (amended) at a concrete atom. -/
theorem C7_escape_exactly_once_witness :
    ('\\' ∉ ("a$\x7bb" : String).data) ∧
    countOcc escPat (escapeStr "a$\x7bb").data = countOcc openPat ("a$\x7bb" : String).data ∧
    countOcc dblPat (escapeStr "a$\x7bb").data = 0 :=
  ⟨by decide, (C7_escape_exactly_once "a$\x7bb" (by decide)).1,
    (C7_escape_exactly_once "a$\x7bb" (by decide)).2.1⟩

/-! ### Counting lemmas for the property handler (C3) -/

theorem countP_map_rel {α : Type} (l : List α) (f : α → α) (p q : α → Bool)
    (h : ∀ x ∈ l, p (f x) = q x) : (l.map f).countP p = l.countP q := by
  induction l with
  | nil => rfl
  | cons a t ih =>
      simp only [List.map_cons, List.countP_cons, h a (List.mem_cons_self a t)]
      rw [ih (fun x hx => h x (List.mem_cons_of_mem a hx))]

theorem countP_congr_mem {α : Type} (l : List α) (p q : α → Bool)
    (h : ∀ x ∈ l, p x = q x) : l.countP p = l.countP q := by
  induction l with
  | nil => rfl
  | cons a t ih =>
      simp only [List.countP_cons, h a (List.mem_cons_self a t)]
      rw [ih (fun x hx => h x (List.mem_cons_of_mem a hx))]

theorem countP_flatIns (l : List String) (c : String → Bool) (a : String) (p : String → Bool) :
    (l.flatMap (fun e => [e] ++ (if c e then [a] else []))).countP p =
      l.countP p + (if p a = true then l.countP c else 0) := by
  induction l with
  | nil => simp
  | cons e t ih =>
      simp only [List.flatMap_cons, List.countP_append, List.countP_cons, List.countP_nil]
      rw [ih]
      by_cases hce : c e <;> by_cases hpa : p a <;> by_cases hpe : p e <;>
        simp [hce, hpa, hpe] <;> omega


/-- C3: for a property node whose second field is the quoted literal
`"Reference"` (with exactly one layer-bearing trailing field, at most one
hide-bearing trailing field, and no field bearing both), the rewritten node
keeps head and `"Reference"`, has its value field equal to the reference
placeholder, every layer-bearing field equal to the side-parametrized
silkscreen placeholder, exactly one such layer field, and exactly one
visibility field equal to the hide placeholder — whether or not an explicit
hide flag was present. -/
theorem C3_handle_property_reference (v : String) (rest : List String)
    (hlay : rest.countP (fun x => strContains x "layer") = 1)
    (hhide : rest.countP (fun x => strContains x "hide") ≤ 1)
    (hboth : ∀ x ∈ rest, ¬(strContains x "layer" = true ∧ strContains x "hide" = true)) :
    ∃ out, handle_property ("property" :: "\"Reference\"" :: v :: rest) = Except.ok out ∧
      out.take 3 = ["property", "\"Reference\"", refTok] ∧
      (∀ x ∈ out.drop 3, strContains x "layer" = true → x = silkTok) ∧
      (out.drop 3).countP (fun x => x == silkTok) = 1 ∧
      (out.drop 3).countP (fun x => x == refHideTok) = 1 := by
  have dSilkLay : strContains silkTok "layer" = true := by decide
  have dSilkHide : strContains silkTok "hide" = false := by decide
  have dHideHide : strContains "hide" "hide" = true := by decide
  have dHideLay : strContains "hide" "layer" = false := by decide
  have dRefHide : strContains refHideTok "hide" = true := by decide
  have dRefLay : strContains refHideTok "layer" = false := by decide
  have dRefSilk : (refHideTok == silkTok) = false := by decide
  have dHideSilk : (("hide" : String) == silkTok) = false := by decide
  simp only [handle_property, ne_eq, not_true_eq_false, if_false, ite_false]
  set f := fun x : String => if strContains x "layer" = true then silkTok else x with hf
  set g := fun x : String => if strContains x "hide" = true then refHideTok else x with hg
  -- pointwise facts
  have hPf : ∀ x ∈ rest, strContains (f x) "layer" = strContains x "layer" := by
    intro x _
    by_cases hp : strContains x "layer" = true
    · simp [hf, hp, dSilkLay]
    · simp [hf, hp]
  have hQf : ∀ x ∈ rest, strContains (f x) "hide" = strContains x "hide" := by
    intro x hx
    by_cases hp : strContains x "layer" = true
    · have hq : strContains x "hide" = false := by
        rcases Bool.eq_false_or_eq_true (strContains x "hide") with h | h
        · exact absurd ⟨hp, h⟩ (hboth x hx)
        · exact h
      simp [hf, hp, dSilkHide, hq]
    · simp [hf, hp]
  have hfSilk : ∀ x ∈ rest, ((f x) == silkTok) = strContains x "layer" := by
    intro x _
    by_cases hp : strContains x "layer" = true
    · simp [hf, hp]
    · have hfx : f x = x := by simp [hf, hp]
      rw [hfx]
      by_cases he : x = silkTok
      · rw [he] at hp; exact absurd dSilkLay hp
      · simp [he, Bool.not_eq_true _ ▸ hp]
  have hT1P : (rest.map f).countP (fun x => strContains x "layer") = 1 := by
    rw [countP_map_rel rest f _ _ hPf]; exact hlay
  have hT1Q : (rest.map f).countP (fun x => strContains x "hide") =
      rest.countP (fun x => strContains x "hide") := countP_map_rel rest f _ _ hQf
  have hT1Silk : (rest.map f).countP (fun x => x == silkTok) = 1 := by
    rw [countP_map_rel rest f _ _ hfSilk]; exact hlay
  -- facts about the final hide-replacement map, valid for every string
  have hgRef : ∀ y : String, ((g y) == refHideTok) = strContains y "hide" := by
    intro y
    by_cases hq : strContains y "hide" = true
    · simp [hg, hq]
    · have hgy : g y = y := by simp [hg, hq]
      rw [hgy]
      by_cases he : y = refHideTok
      · rw [he] at hq; exact absurd dRefHide hq
      · simp [he, Bool.not_eq_true _ ▸ hq]
  have hgSilk : ∀ y : String, ((g y) == silkTok) = (y == silkTok) := by
    intro y
    by_cases hq : strContains y "hide" = true
    · have : g y = refHideTok := by simp [hg, hq]
      rw [this, dRefSilk]
      by_cases he : y = silkTok
      · rw [he] at hq; rw [dSilkHide] at hq; cases hq
      · simp [he]
    · simp [hg, hq]
  by_cases hfound : ((rest.map f).filter (fun x => strContains x "hide")).isEmpty = true
  · rw [if_pos hfound]
    have hQ0 : ∀ y ∈ rest.map f, ¬ strContains y "hide" = true :=
      List.filter_eq_nil_iff.mp (List.isEmpty_iff.mp hfound)
    have hQ0c : (rest.map f).countP (fun x => strContains x "hide") = 0 :=
      List.countP_eq_zero.mpr hQ0
    have hc : ∀ y ∈ rest.map f,
        (strContains y "layer" || y == "hide") = strContains y "layer" := by
      intro y hy
      by_cases he : y = "hide"
      · rw [he] at hy
        exact absurd dHideHide (hQ0 _ hy)
      · simp [he]
    have hcCount : (rest.map f).countP (fun e => strContains e "layer" || e == "hide") = 1 := by
      rw [countP_congr_mem _ _ _ hc]; exact hT1P
    refine ⟨_, rfl, rfl, ?_, ?_, ?_⟩
    · -- every layer-bearing member of the result is the silk token
      intro x hx hpx
      simp only [List.drop_succ_cons, List.drop_zero] at hx
      rcases List.mem_map.mp hx with ⟨y, hy, hgy⟩
      rcases List.mem_flatMap.mp hy with ⟨e, he, hye⟩
      simp only [List.mem_append, List.mem_singleton] at hye
      by_cases hq : strContains y "hide" = true
      · have : g y = refHideTok := by simp [hg, hq]
        rw [this] at hgy
        rw [← hgy] at hpx
        rw [dRefLay] at hpx; cases hpx
      · have hgy2 : g y = y := by simp [hg, hq]
        rw [hgy2] at hgy
        subst hgy
        rcases hye with hye | hye
        · subst hye
          rcases List.mem_map.mp he with ⟨z, _, hz⟩
          by_cases hpz : strContains z "layer" = true
          · rw [← hz]; simp [hf, hpz]
          · rw [← hz] at hpx ⊢
            simp only [hf, if_neg hpz] at hpx
            exact absurd hpx hpz
        · split at hye
          · simp only [List.mem_singleton] at hye
            subst hye
            rw [dHideLay] at hpx; cases hpx
          · exact absurd hye (List.not_mem_nil _)
    · simp only [List.drop_succ_cons, List.drop_zero]
      rw [countP_map_rel _ g _ _ (fun y _ => hgSilk y)]
      rw [countP_flatIns _ _ _ _, dHideSilk]
      simp only [Bool.false_eq_true, if_false, Nat.add_zero]
      exact hT1Silk
    · simp only [List.drop_succ_cons, List.drop_zero]
      rw [countP_map_rel _ g _ _ (fun y _ => hgRef y)]
      rw [countP_flatIns _ _ _ _, dHideHide]
      simp only [if_true]
      rw [hQ0c, hcCount]

  · rw [if_neg hfound]
    have hQ1 : (rest.map f).countP (fun x => strContains x "hide") = 1 := by
      have hne : (rest.map f).filter (fun x => strContains x "hide") ≠ [] := by
        intro hnil
        exact hfound (by rw [hnil]; rfl)
      have : (rest.map f).countP (fun x => strContains x "hide") ≠ 0 := by
        intro h0
        exact hne (List.filter_eq_nil_iff.mpr (List.countP_eq_zero.mp h0))
      rw [hT1Q] at this ⊢
      omega
    refine ⟨_, rfl, rfl, ?_, ?_, ?_⟩
    · intro x hx hpx
      simp only [List.drop_succ_cons, List.drop_zero] at hx
      rcases List.mem_map.mp hx with ⟨y, hy, hgy⟩
      by_cases hq : strContains y "hide" = true
      · have : g y = refHideTok := by simp [hg, hq]
        rw [this] at hgy
        rw [← hgy] at hpx
        rw [dRefLay] at hpx; cases hpx
      · have hgy2 : g y = y := by simp [hg, hq]
        rw [hgy2] at hgy
        subst hgy
        rcases List.mem_map.mp hy with ⟨z, _, hz⟩
        by_cases hpz : strContains z "layer" = true
        · rw [← hz]; simp [hf, hpz]
        · rw [← hz] at hpx ⊢
          simp only [hf, if_neg hpz] at hpx
          exact absurd hpx hpz
    · simp only [List.drop_succ_cons, List.drop_zero]
      rw [countP_map_rel _ g _ _ (fun y _ => hgSilk y)]
      exact hT1Silk
    · simp only [List.drop_succ_cons, List.drop_zero]
      rw [countP_map_rel _ g _ _ (fun y _ => hgRef y)]
      exact hQ1

/-- Witness for C3 at concrete property nodes (one with an explicit hide
flag, one without). -/
theorem C3_handle_property_reference_witness :
    (List.countP (fun x => strContains x "layer")
        ["(at 0 0)", "(layer \"F.SilkS\")"] = 1 ∧
      List.countP (fun x => strContains x "hide")
        ["(at 0 0)", "(layer \"F.SilkS\")"] ≤ 1 ∧
      (∀ x ∈ ["(at 0 0)", "(layer \"F.SilkS\")"],
        ¬(strContains x "layer" = true ∧ strContains x "hide" = true))) ∧
    (∃ out, handle_property ("property" :: "\"Reference\"" :: "\"REF**\"" ::
        ["(at 0 0)", "(layer \"F.SilkS\")"]) = Except.ok out ∧
      out.take 3 = ["property", "\"Reference\"", refTok] ∧
      (∀ x ∈ out.drop 3, strContains x "layer" = true → x = silkTok) ∧
      (out.drop 3).countP (fun x => x == silkTok) = 1 ∧
      (out.drop 3).countP (fun x => x == refHideTok) = 1) :=
  ⟨⟨by decide, by decide, by decide⟩,
    C3_handle_property_reference "\"REF**\"" ["(at 0 0)", "(layer \"F.SilkS\")"]
      (by decide) (by decide) (by decide)⟩

/-! ### The classifier as a first-match partition (C4) -/

theorem filterMap_congr_mem {α β : Type} (l : List α) (f g : α → Option β)
    (h : ∀ x ∈ l, f x = g x) : l.filterMap f = l.filterMap g := by
  induction l with
  | nil => rfl
  | cons a t ih =>
      simp only [List.filterMap_cons, h a (List.mem_cons_self a t)]
      rw [ih (fun x hx => h x (List.mem_cons_of_mem a hx))]

theorem filtersOut_spec (aLayer : String) (onelines : List String) (options : List String) :
    filtersOut aLayer onelines options =
      (onelines.filter (fun s => claimsLine s aLayer options),
        onelines.filter (fun s => !(claimsLine s aLayer options))) := by
  induction onelines with
  | nil => rfl
  | cons item rest ih =>
      simp only [filtersOut, ih, List.filter_cons]
      by_cases h1 : strContains item aLayer = true
      · by_cases h2 : options.isEmpty = true
        · simp [claimsLine, h1, h2]
        · by_cases h3 : options.any (fun o => strContains item o) = true
          · simp [claimsLine, h1, h2, h3]
          · simp [claimsLine, h1, h2, h3]
      · simp [claimsLine, h1]

theorem claimOf_cons (n : String) (rest : List String) (s : String) :
    claimOf (n :: rest) s =
      if claimsLine s n (layerOptions n) then some n else claimOf rest s := by
  simp [claimOf, List.find?_cons]
  split <;> rename_i hh
  · rw [if_pos hh]
  · rw [if_neg (by simpa using hh)]

theorem claimOf_mem (names : List String) (s m : String) (h : claimOf names s = some m) :
    m ∈ names := by
  exact List.mem_of_find?_eq_some h


/-- Specification of one bucket: the lines whose first claiming layer (in
enumeration order, markers included) is `n`. -/
def bucketSpec (names lines : List String) (n : String) : List String :=
  lines.filter (fun s => claimOf names s == some n)

/-- Specification of the bucket list: one entry per enumerated name with a
non-empty bucket, in enumeration order. -/
def bucketsSpec (names allNames lines : List String) : List (String × List String) :=
  names.filterMap (fun n =>
    if (bucketSpec allNames lines n).isEmpty then none
    else some (n, bucketSpec allNames lines n))

theorem getLayersGo_spec (names : List String) (hnd : names.Nodup) (lines : List String) :
    getLayersGo names lines =
      (bucketsSpec names names lines,
       lines.filter (fun s => (claimOf names s).isNone)) := by
  induction names generalizing lines with
  | nil =>
      simp [getLayersGo, bucketsSpec, claimOf, List.find?_nil]
  | cons n rest ih =>
      have hn : n ∉ rest := (List.nodup_cons.mp hnd).1
      have hndr : rest.Nodup := (List.nodup_cons.mp hnd).2
      have hK1 : bucketSpec (n :: rest) lines n =
          lines.filter (fun s => claimsLine s n (layerOptions n)) := by
        unfold bucketSpec
        apply List.filter_congr
        intro s _
        rw [claimOf_cons]
        by_cases hp : claimsLine s n (layerOptions n) = true
        · simp [hp]
        · simp only [hp, if_false, Bool.if_false_left]
          cases hq : claimOf rest s with
          | none => simp [hp]
          | some m =>
              have hm : m ∈ rest := claimOf_mem rest s m hq
              have : m ≠ n := fun he => hn (he ▸ hm)
              simp [hp, this]
      have hK2 : ∀ m ∈ rest,
          bucketSpec rest (lines.filter (fun s => !(claimsLine s n (layerOptions n)))) m =
          bucketSpec (n :: rest) lines m := by
        intro m hm
        unfold bucketSpec
        rw [List.filter_filter]
        apply List.filter_congr
        intro s _
        rw [claimOf_cons]
        by_cases hp : claimsLine s n (layerOptions n) = true
        · have : m ≠ n := fun he => hn (he ▸ hm)
          simp [hp, Ne.symm this]
        · simp [hp]
      have hK3 : (lines.filter (fun s => !(claimsLine s n (layerOptions n)))).filter
            (fun s => (claimOf rest s).isNone) =
          lines.filter (fun s => (claimOf (n :: rest) s).isNone) := by
        rw [List.filter_filter]
        apply List.filter_congr
        intro s _
        rw [claimOf_cons]
        by_cases hp : claimsLine s n (layerOptions n) = true
        · simp [hp]
        · simp [hp]
      have hB : bucketsSpec rest rest (lines.filter
            (fun s => !(claimsLine s n (layerOptions n)))) =
          bucketsSpec rest (n :: rest) lines := by
        unfold bucketsSpec
        exact filterMap_congr_mem rest _ _ (fun m hm => by rw [hK2 m hm])
      have hhead : bucketsSpec (n :: rest) (n :: rest) lines =
          (if (lines.filter (fun s => claimsLine s n (layerOptions n))).isEmpty then
            bucketsSpec rest (n :: rest) lines
          else (n, lines.filter (fun s => claimsLine s n (layerOptions n))) ::
            bucketsSpec rest (n :: rest) lines) := by
        show List.filterMap _ (n :: rest) = _
        rw [List.filterMap_cons]
        rw [show (if (bucketSpec (n :: rest) lines n).isEmpty then none
            else some (n, bucketSpec (n :: rest) lines n)) =
          (if (lines.filter (fun s => claimsLine s n (layerOptions n))).isEmpty then none
            else some (n, lines.filter (fun s => claimsLine s n (layerOptions n)))) from by
          rw [hK1]]
        by_cases hb : (lines.filter (fun s => claimsLine s n (layerOptions n))).isEmpty = true
        · rw [if_pos hb, if_pos hb]
          rfl
        · rw [if_neg hb, if_neg hb]
          rfl
      show (let fu := filtersOut n lines (layerOptions n)
            let bu := getLayersGo rest fu.2
            (if fu.1.isEmpty then bu.1 else (n, fu.1) :: bu.1, bu.2)) = _
      rw [filtersOut_spec]
      simp only
      rw [ih hndr]
      simp only
      rw [hK3, hB, hhead]

/-- C4: layer classification is a strict partition of the flattened line
sequence: the bucket of every enumerated layer consists exactly of the lines
whose first claiming layer (via `claimOf`, the first-match function over the
enumeration) is that layer, the opening bucket holds exactly the (normalized)
lines claimed by no layer — so each line lands in exactly one bucket, decided
by enumeration order — and a line is claimed by a copper layer only if it
also contains one of the pad/fp_line/fp_poly/fp_text markers. -/
theorem C4_classification_partition :
    (∀ lines, getLayers lines =
      bucketsSpec layersOrder layersOrder lines
        ++ [("Opening", (lines.filter (fun s => (claimOf layersOrder s).isNone)).map
              normalizeOpening)]) ∧
    (∀ s : String, claimOf layersOrder s = some "F.Cu" →
        cuMarkers.any (fun o => strContains s o) = true) ∧
    (∀ s : String, claimOf layersOrder s = some "B.Cu" →
        cuMarkers.any (fun o => strContains s o) = true) := by
  refine ⟨?_, ?_, ?_⟩
  · intro lines
    unfold getLayers
    rw [getLayersGo_spec layersOrder (by decide) lines]
  · intro s h
    unfold claimOf at h
    have hp : claimsLine s "F.Cu" (layerOptions "F.Cu") = true := by
      have := List.find?_some h
      simpa using this
    unfold claimsLine at hp
    rw [Bool.and_eq_true] at hp
    have h2 := hp.2
    rw [Bool.or_eq_true] at h2
    rcases h2 with h1 | h1
    · rw [show (layerOptions "F.Cu").isEmpty = false from rfl] at h1
      cases h1
    · exact h1
  · intro s h
    unfold claimOf at h
    have hp : claimsLine s "B.Cu" (layerOptions "B.Cu") = true := by
      have := List.find?_some h
      simpa using this
    unfold claimsLine at hp
    rw [Bool.and_eq_true] at hp
    have h2 := hp.2
    rw [Bool.or_eq_true] at h2
    rcases h2 with h1 | h1
    · rw [show (layerOptions "B.Cu").isEmpty = false from rfl] at h1
      cases h1
    · exact h1

/-- Witness for C4 at a concrete pad line. -/
theorem C4_classification_partition_witness :
    claimOf layersOrder "(pad \"1\" smd (layers \"F.Cu\"))" = some "F.Cu" ∧
    cuMarkers.any (fun o => strContains "(pad \"1\" smd (layers \"F.Cu\"))" o) = true :=
  ⟨by decide, C4_classification_partition.2.1 _ (by decide)⟩

/-! ### Totality of the rewriter on non-empty groups (C10) -/

mutual
/-- Every parenthesized group in this node has at least one token. -/
def nonemptyNode : Node → Bool
  | Node.atom _ => true
  | Node.list cs => !cs.isEmpty && nonemptyAll cs
/-- Every parenthesized group in this child list has at least one token. -/
def nonemptyAll : List Node → Bool
  | [] => true
  | c :: rest => nonemptyNode c && nonemptyAll rest
end

theorem handle_pad_no_emptyHead (pad : List String) (pads : List String) :
    handle_pad pad pads ≠ Except.error Err.emptyHead := by
  unfold handle_pad
  split
  · simp
  · simp
  · split
    · simp
    · split
      · simp
      · simp

theorem handle_property_no_emptyHead (result : List String) :
    handle_property result ≠ Except.error Err.emptyHead := by
  unfold handle_property
  split
  · simp
  · simp
  · split
    · simp
    · split
      · simp
      · simp

theorem rebuild_no_emptyHead_aux :
    ∀ (k : Nat) (cs : List Node), sizeOf cs ≤ k →
      ((nonemptyAll cs = true → ∀ pads,
        rebuildChildren cs pads ≠ Except.error Err.emptyHead ∧
        (∀ res p, rebuildChildren cs pads = Except.ok (res, p) → res.length = cs.length)) ∧
      (nonemptyAll cs = true → cs ≠ [] → ∀ pads,
        rebuildNode cs pads ≠ Except.error Err.emptyHead)) := by
  intro k
  induction k with
  | zero =>
      intro cs h
      exact absurd h (by cases cs <;> simp)
  | succ n ihk =>
      intro cs hsz
      have hA : nonemptyAll cs = true → ∀ pads,
          rebuildChildren cs pads ≠ Except.error Err.emptyHead ∧
          (∀ res p, rebuildChildren cs pads = Except.ok (res, p) →
            res.length = cs.length) := by
        intro hne pads
        match cs, hsz, hne with
        | [], _, _ =>
            refine ⟨by simp [rebuildChildren], ?_⟩
            intro res p hok
            simp [rebuildChildren] at hok
            simp [hok.1]
        | Node.atom s :: rest, hsz, hne =>
            have hrsz : sizeOf rest ≤ n := by
              simp only [List.cons.sizeOf_spec, Node.atom.sizeOf_spec] at hsz
              omega
            have hner : nonemptyAll rest = true := by
              simp only [nonemptyAll, Bool.and_eq_true] at hne
              exact hne.2
            have ihr := ((ihk rest hrsz).1 hner pads)
            cases hrc : rebuildChildren rest pads with
            | error e =>
                have he : e ≠ Err.emptyHead := by
                  intro hcontra
                  exact ihr.1 (hcontra ▸ hrc)
                refine ⟨?_, ?_⟩
                · rw [rebuildChildren, hrc, error_bind]
                  intro hcontra
                  exact he (Except.error.inj hcontra)
                · intro res p hok
                  rw [rebuildChildren, hrc, error_bind] at hok
                  cases hok
            | ok tp =>
                obtain ⟨tl, p⟩ := tp
                refine ⟨?_, ?_⟩
                · rw [rebuildChildren, hrc, ok_bind]
                  simp
                · intro res p2 hok
                  rw [rebuildChildren, hrc, ok_bind] at hok
                  simp only [Except.ok.injEq, Prod.mk.injEq] at hok
                  rw [← hok.1]
                  simp [ihr.2 tl p hrc]
        | Node.list cs' :: rest, hsz, hne =>
            have hcsz : sizeOf cs' ≤ n := by
              simp only [List.cons.sizeOf_spec, Node.list.sizeOf_spec] at hsz
              omega
            have hrsz : sizeOf rest ≤ n := by
              simp only [List.cons.sizeOf_spec, Node.list.sizeOf_spec] at hsz
              omega
            rw [nonemptyAll, Bool.and_eq_true, nonemptyNode, Bool.and_eq_true] at hne
            obtain ⟨⟨hcse, hnecs2⟩, hner⟩ := hne
            have hcsne : cs' ≠ [] := by
              intro hn
              rw [hn] at hcse
              simp at hcse
            have ihn := (ihk cs' hcsz).2 hnecs2 hcsne pads
            cases hrn : rebuildNode cs' pads with
            | error e =>
                have he : e ≠ Err.emptyHead := fun hc => ihn (hc ▸ hrn)
                refine ⟨?_, ?_⟩
                · rw [rebuildChildren, hrn, error_bind]
                  intro hcontra
                  exact he (Except.error.inj hcontra)
                · intro res p hok
                  rw [rebuildChildren, hrn, error_bind] at hok
                  cases hok
            | ok lp =>
                obtain ⟨line, p⟩ := lp
                have ihr := (ihk rest hrsz).1 hner p
                cases hrc : rebuildChildren rest p with
                | error e =>
                    have he : e ≠ Err.emptyHead := fun hc => ihr.1 (hc ▸ hrc)
                    refine ⟨?_, ?_⟩
                    · rw [rebuildChildren, hrn, ok_bind]
                      dsimp only
                      rw [hrc, error_bind]
                      intro hcontra
                      exact he (Except.error.inj hcontra)
                    · intro res p2 hok
                      rw [rebuildChildren, hrn, ok_bind] at hok
                      dsimp only at hok
                      rw [hrc, error_bind] at hok
                      cases hok
                | ok tp =>
                    obtain ⟨tl, p2⟩ := tp
                    refine ⟨?_, ?_⟩
                    · rw [rebuildChildren, hrn, ok_bind]
                      dsimp only
                      rw [hrc, ok_bind]
                      simp
                    · intro res p3 hok
                      rw [rebuildChildren, hrn, ok_bind] at hok
                      dsimp only at hok
                      rw [hrc, ok_bind] at hok
                      simp only [Except.ok.injEq, Prod.mk.injEq] at hok
                      rw [← hok.1]
                      simp [ihr.2 tl p2 hrc]
      refine ⟨hA, ?_⟩
      intro hne hcs pads
      cases hrc : rebuildChildren cs pads with
      | error e =>
          have he : e ≠ Err.emptyHead := fun hc => (hA hne pads).1 (hc ▸ hrc)
          rw [rebuildNode, hrc, error_bind]
          intro hcontra
          exact he (Except.error.inj hcontra)
      | ok rp =>
          obtain ⟨res, p1⟩ := rp
          have hlen : res.length = cs.length := (hA hne pads).2 res p1 hrc
          match res, hlen with
          | [], hlen =>
              exfalso
              cases cs with
              | nil => exact hcs rfl
              | cons c t => simp at hlen
          | h :: t, _ =>
              rw [rebuildNode, hrc, ok_bind]
              dsimp only
              by_cases h1 : h = "at"
              · simp only [h1, if_true, ok_bind]
                split <;> simp
              · rw [if_neg h1]
                by_cases h2 : h = "pad"
                · simp only [h2, if_true]
                  cases hp : handle_pad ("pad" :: t) p1 with
                  | error e =>
                      have he : e ≠ Err.emptyHead := by
                        intro hc
                        exact handle_pad_no_emptyHead ("pad" :: t) p1 (hc ▸ hp)
                      rw [error_bind]
                      intro hcontra
                      exact he (Except.error.inj hcontra)
                  | ok hr =>
                      rw [ok_bind]
                      split <;> simp
                · rw [if_neg h2]
                  by_cases h3 : h = "property"
                  · simp only [h3, if_true]
                    cases hp : handle_property ("property" :: t) with
                    | error e =>
                        have he : e ≠ Err.emptyHead := by
                          intro hc
                          exact handle_property_no_emptyHead ("property" :: t) (hc ▸ hp)
                        simp only [Except.map, error_bind]
                        intro hcontra
                        exact he (Except.error.inj hcontra)
                    | ok hr =>
                        simp only [Except.map, ok_bind]
                        split <;> simp
                  · rw [if_neg h3]
                    by_cases h4 : h = "tstamp"
                    · simp [h4, ok_bind]
                    · rw [if_neg h4]
                      by_cases h5 : h = "uuid"
                      · simp [h5, ok_bind]
                      · rw [if_neg h5]
                        simp only [ok_bind]
                        simp

/-- C10: the node rewriter is total with respect to head indexing exactly on
inputs whose parenthesized groups are all non-empty: under that precondition
the rewrite never fails with the head-index error (`result[0]`), while an
input containing an empty group `()` reaches the head-indexing error branch
and the rewrite fails. -/
theorem C10_rewriter_totality :
    (∀ (cs : List Node) (pads : List String), nonemptyAll cs = true → cs ≠ [] →
      rebuildNode cs pads ≠ Except.error Err.emptyHead) ∧
    rebuildNode [Node.atom "a", Node.list []] [] = Except.error Err.emptyHead := by
  constructor
  · intro cs pads hne hcs
    exact (rebuild_no_emptyHead_aux (sizeOf cs) cs le_rfl).2 hne hcs pads
  · simp [rebuildNode, rebuildChildren, ok_bind, error_bind, procAtom, remapGet, escapeStr,
      replaceStr, replaceGo]

/-- Witness for C10 at a concrete non-empty node. -/
theorem C10_rewriter_totality_witness :
    (nonemptyAll [Node.atom "at"] = true ∧ [Node.atom "at"] ≠ []) ∧
    rebuildNode [Node.atom "at"] [] ≠ Except.error Err.emptyHead :=
  ⟨⟨by simp [nonemptyAll, nonemptyNode], by simp⟩,
    C10_rewriter_totality.1 [Node.atom "at"] [] (by simp [nonemptyAll, nonemptyNode]) (by simp)⟩

/-! ### Handler-injected placeholders stay live (C9) -/

theorem rebuildNode_at3_rot (a b : String) (pads : List String) :
    rebuildNode [Node.atom "at", Node.atom a, Node.atom b] pads =
      Except.ok ("(at " ++ procAtom a ++ " " ++ procAtom b ++ " " ++ rotTok ++ ")", pads) := by
  simp only [rebuildNode, rebuildChildren, ok_bind, procAtom_at]
  norm_num [handle_at]
  apply String.ext
  simp [String.data_append, String.intercalate, String.intercalate.go]

theorem rebuildNode_at4_rot (a b v : String) (pads : List String) :
    rebuildNode [Node.atom "at", Node.atom a, Node.atom b, Node.atom v] pads =
      Except.ok ("(at " ++ procAtom a ++ " " ++ procAtom b ++ " $\x7b" ++ procAtom v
        ++ " + p.rot\x7d)", pads) := by
  simp only [rebuildNode, rebuildChildren, ok_bind, procAtom_at]
  norm_num [handle_at]
  apply String.ext
  simp [String.data_append, String.intercalate, String.intercalate.go]

theorem rebuildNode_property_hide :
    rebuildNode [Node.atom "property", Node.atom "\"Reference\"", Node.atom "\"REF**\"",
        Node.list [Node.atom "layer", Node.atom "\"F.SilkS\""], Node.atom "hide"] [] =
      Except.ok ("(property \"Reference\" \"$\x7bp.ref\x7d\" (layer \"$\x7bp.side\x7d.SilkS\")"
        ++ " $\x7bp.ref_hide\x7d)", []) := by
  simp [rebuildNode, rebuildChildren, ok_bind, procAtom, remapGet, escapeStr, replaceStr,
    replaceGo, handle_property, strContains, hasSub, refTok, silkTok, refHideTok]
  rfl

theorem rebuildNode_property_nohide :
    rebuildNode [Node.atom "property", Node.atom "\"Reference\"", Node.atom "\"REF**\"",
        Node.list [Node.atom "layer", Node.atom "\"F.SilkS\""]] [] =
      Except.ok ("(property \"Reference\" \"$\x7bp.ref\x7d\" (layer \"$\x7bp.side\x7d.SilkS\")"
        ++ " $\x7bp.ref_hide\x7d)", []) := by
  simp [rebuildNode, rebuildChildren, ok_bind, procAtom, remapGet, escapeStr, replaceStr,
    replaceGo, handle_property, strContains, hasSub, refTok, silkTok, refHideTok]
  rfl

theorem convertFile_injected_live :
    ∃ out, convertFile (some [Node.atom "footprint",
        Node.list [Node.atom "at", Node.atom "1", Node.atom "2"],
        Node.list [Node.atom "pad", Node.atom "\"1\"", Node.atom "smd"],
        Node.list [Node.atom "property", Node.atom "\"Reference\"", Node.atom "\"REF**\"",
          Node.list [Node.atom "layer", Node.atom "\"F.SilkS\""], Node.atom "hide"],
        Node.list [Node.atom "fp_text", Node.atom "\"x$\x7by\x7d\""]]) = Except.ok out ∧
      strContains out rotTok = true ∧ strContains out ("\\" ++ rotTok) = false ∧
      strContains out "$\x7bp.P1\x7d" = true ∧
      strContains out ("\\" ++ "$\x7bp.P1\x7d") = false ∧
      strContains out "$\x7bp.ref\x7d" = true ∧
      strContains out ("\\" ++ "$\x7bp.ref\x7d") = false ∧
      strContains out refHideTok = true ∧ strContains out ("\\" ++ refHideTok) = false ∧
      strContains out "$\x7bp.side\x7d" = true ∧
      strContains out ("\\" ++ "$\x7bp.side\x7d") = false ∧
      strContains out "\\$\x7by\x7d" = true := by
  have hc : convert (some [Node.atom "footprint",
      Node.list [Node.atom "at", Node.atom "1", Node.atom "2"],
      Node.list [Node.atom "pad", Node.atom "\"1\"", Node.atom "smd"],
      Node.list [Node.atom "property", Node.atom "\"Reference\"", Node.atom "\"REF**\"",
        Node.list [Node.atom "layer", Node.atom "\"F.SilkS\""], Node.atom "hide"],
      Node.list [Node.atom "fp_text", Node.atom "\"x$\x7by\x7d\""]]) =
      Except.ok ([" footprint", "(at 1 2 $\x7bp.rot\x7d)", "(pad \"1\" smd $\x7bp.P1\x7d)",
        "(property \"Reference\" \"$\x7bp.ref\x7d\" (layer \"$\x7bp.side\x7d.SilkS\")"
          ++ " $\x7bp.ref_hide\x7d)",
        "(fp_text \"x\\$\x7by\x7d\")"], ["P1"]) := by
    simp [convert, make_onelines, makeOnelinesGo, rebuildNode, rebuildChildren, procAtom,
      remapGet, escapeStr, replaceStr, replaceGo, ok_bind, handle_pad, handle_property,
      stripQuotes, addPad, strContains, hasSub, refTok, silkTok, refHideTok, handle_at, rotTok]
    rfl
  unfold convertFile
  rw [hc]
  simp only [ok_bind]
  exact ⟨_, rfl, by set_option maxRecDepth 20000 in decide,
    by set_option maxRecDepth 20000 in decide, by set_option maxRecDepth 20000 in decide,
    by set_option maxRecDepth 20000 in decide, by set_option maxRecDepth 20000 in decide,
    by set_option maxRecDepth 20000 in decide, by set_option maxRecDepth 20000 in decide,
    by set_option maxRecDepth 20000 in decide, by set_option maxRecDepth 20000 in decide,
    by set_option maxRecDepth 20000 in decide, by set_option maxRecDepth 20000 in decide⟩

theorem rebuildNode_pad_example :
    rebuildNode [Node.atom "pad", Node.atom "\"1\"", Node.atom "smd"] [] =
      Except.ok ("(pad \"1\" smd $\x7bp.P1\x7d)", ["P1"]) := by
  simp [rebuildNode, rebuildChildren, handle_pad, procAtom, remapGet, escapeStr,
    replaceStr, replaceGo, stripQuotes, addPad]
  rfl

/-- C9: placeholder tokens injected by the node-type handlers are never
escaped, because atom escaping (`procAtom`) runs before handler dispatch:
in a rewritten `at` node only the source atoms pass through `procAtom` while
the appended `${p.rot}` (and, when a 4th field exists, the injected
`${<v> + p.rot}` wrapper) appears verbatim; the pad handler's net-reference
token `${p.P1}` appears verbatim and live; the property handler's reference,
side-parametrized layer and conditional-hide placeholders appear verbatim
with or without a source hide flag; and in the fully emitted module of a
footprint exercising all handlers every injected placeholder occurs and none
of its occurrences is backslash-escaped, while a literal placeholder opener
from a nested source atom does appear escaped. -/
theorem C9_injected_placeholders_live :
    (∀ (a b : String) (pads : List String),
      rebuildNode [Node.atom "at", Node.atom a, Node.atom b] pads =
        Except.ok ("(at " ++ procAtom a ++ " " ++ procAtom b ++ " " ++ rotTok ++ ")", pads)) ∧
    (∀ (a b v : String) (pads : List String),
      rebuildNode [Node.atom "at", Node.atom a, Node.atom b, Node.atom v] pads =
        Except.ok ("(at " ++ procAtom a ++ " " ++ procAtom b ++ " $\x7b" ++ procAtom v
          ++ " + p.rot\x7d)", pads)) ∧
    countOcc "$\x7b".data rotTok.data = 1 ∧
    countOcc "\\$\x7b".data rotTok.data = 0 ∧
    (rebuildNode [Node.atom "pad", Node.atom "\"1\"", Node.atom "smd"] [] =
      Except.ok ("(pad \"1\" smd $\x7bp.P1\x7d)", ["P1"])) ∧
    countOcc "$\x7b".data "(pad \"1\" smd $\x7bp.P1\x7d)".data = 1 ∧
    countOcc "\\$\x7b".data "(pad \"1\" smd $\x7bp.P1\x7d)".data = 0 ∧
    (rebuildNode [Node.atom "property", Node.atom "\"Reference\"", Node.atom "\"REF**\"",
        Node.list [Node.atom "layer", Node.atom "\"F.SilkS\""], Node.atom "hide"] [] =
      Except.ok ("(property \"Reference\" \"$\x7bp.ref\x7d\" (layer \"$\x7bp.side\x7d.SilkS\")"
        ++ " $\x7bp.ref_hide\x7d)", [])) ∧
    (rebuildNode [Node.atom "property", Node.atom "\"Reference\"", Node.atom "\"REF**\"",
        Node.list [Node.atom "layer", Node.atom "\"F.SilkS\""]] [] =
      Except.ok ("(property \"Reference\" \"$\x7bp.ref\x7d\" (layer \"$\x7bp.side\x7d.SilkS\")"
        ++ " $\x7bp.ref_hide\x7d)", [])) ∧
    countOcc "$\x7b".data
      ("(property \"Reference\" \"$\x7bp.ref\x7d\" (layer \"$\x7bp.side\x7d.SilkS\")"
        ++ " $\x7bp.ref_hide\x7d)").data = 3 ∧
    countOcc "\\$\x7b".data
      ("(property \"Reference\" \"$\x7bp.ref\x7d\" (layer \"$\x7bp.side\x7d.SilkS\")"
        ++ " $\x7bp.ref_hide\x7d)").data = 0 ∧
    (∃ out, convertFile (some [Node.atom "footprint",
        Node.list [Node.atom "at", Node.atom "1", Node.atom "2"],
        Node.list [Node.atom "pad", Node.atom "\"1\"", Node.atom "smd"],
        Node.list [Node.atom "property", Node.atom "\"Reference\"", Node.atom "\"REF**\"",
          Node.list [Node.atom "layer", Node.atom "\"F.SilkS\""], Node.atom "hide"],
        Node.list [Node.atom "fp_text", Node.atom "\"x$\x7by\x7d\""]]) = Except.ok out ∧
      strContains out rotTok = true ∧ strContains out ("\\" ++ rotTok) = false ∧
      strContains out "$\x7bp.P1\x7d" = true ∧
      strContains out ("\\" ++ "$\x7bp.P1\x7d") = false ∧
      strContains out "$\x7bp.ref\x7d" = true ∧
      strContains out ("\\" ++ "$\x7bp.ref\x7d") = false ∧
      strContains out refHideTok = true ∧ strContains out ("\\" ++ refHideTok) = false ∧
      strContains out "$\x7bp.side\x7d" = true ∧
      strContains out ("\\" ++ "$\x7bp.side\x7d") = false ∧
      strContains out "\\$\x7by\x7d" = true) :=
  ⟨rebuildNode_at3_rot, rebuildNode_at4_rot, by decide, by decide,
    by rw [rebuildNode_pad_example], by decide, by decide,
    rebuildNode_property_hide, rebuildNode_property_nohide, by decide, by decide,
    convertFile_injected_live⟩
